import Mathlib

/-!
Shallow embedding of the shoppingcart-backend order pipeline
(domain model, repository layer, order service, order cache,
ingestion consumer) and proofs of its specified properties.

Modelling conventions:
* The Postgres store is a `Store` of four tables, each an ordered list
  of rows (`INSERT` appends, `SELECT ... WHERE order_uid = $1` finds the
  first matching row, the items query returns all matching rows).
* Database / pool failures are injected through explicit fault flags
  (`WriteFaults` for the save path, `ReadFaults` for the read path):
  a set flag makes the corresponding operation return its error.
* A transaction is a pending copy of the store: the inserts of
  `save_order` mutate the pending copy, which becomes visible only on
  commit; on any failure the original store is returned unchanged.
* Each service call additionally returns the ordered list of repository
  / pool operations it attempted (`RepoEvent`), which makes "no I/O is
  performed" and "the inserts run in this fixed order" provable.
-/

/-- Delivery record (crate `model`): recipient and address data. -/
structure Delivery where
  name : String
  phone : String
  zip : String
  city : String
  address : String
  region : String
  email : String
deriving DecidableEq

/-- Payment record (crate `model`): transaction and amount data. -/
structure Payment where
  transaction : String
  request_id : String
  currency : String
  provider : String
  amount : Int
  payment_dt : Int
  bank : String
  delivery_cost : Int
  goods_total : Int
  custom_fee : Int
deriving DecidableEq

/-- Item record (crate `model`): one product line of an order. -/
structure Item where
  chrt_id : Int
  track_number : String
  price : Int
  rid : String
  name : String
  sale : Int
  size : String
  total_price : Int
  nm_id : Int
  brand : String
  status : Int
deriving DecidableEq

/-- Order aggregate (crate `model`). `date_created` is modelled as an
integer timestamp. -/
structure Order where
  order_uid : String
  track_number : String
  entry : String
  delivery : Delivery
  payment : Payment
  items : List Item
  locale : String
  internal_signature : String
  customer_id : String
  delivery_service : String
  shardkey : String
  sm_id : Int
  date_created : Int
  oof_shard : String
deriving DecidableEq

/-- Rust `Delivery::default()`: every field `Default::default()`. -/
def defaultDelivery : Delivery :=
  ⟨"", "", "", "", "", "", ""⟩

/-- Rust `Payment::default()`: every field `Default::default()`. -/
def defaultPayment : Payment :=
  ⟨"", "", "", "", 0, 0, "", 0, 0, 0⟩

/-- One row of the `orders` table: the eleven header columns inserted by
`PgOrdersRepository::insert_tx`. -/
structure OrderHeader where
  order_uid : String
  track_number : String
  entry : String
  locale : String
  internal_signature : String
  customer_id : String
  delivery_service : String
  shardkey : String
  sm_id : Int
  date_created : Int
  oof_shard : String
deriving DecidableEq

/-- The header columns of an order, as written by
`PgOrdersRepository::insert_tx`. -/
def Order.toHeader (o : Order) : OrderHeader :=
  ⟨o.order_uid, o.track_number, o.entry, o.locale, o.internal_signature,
   o.customer_id, o.delivery_service, o.shardkey, o.sm_id, o.date_created,
   o.oof_shard⟩

/-- Reconstruction of an `Order` from a header row, as done by
`PgOrdersRepository::get_by_id`: delivery, payment and items are filled
with defaults, to be replaced by the service. -/
def OrderHeader.toOrder (h : OrderHeader) : Order :=
  ⟨h.order_uid, h.track_number, h.entry, defaultDelivery, defaultPayment,
   [], h.locale, h.internal_signature, h.customer_id, h.delivery_service,
   h.shardkey, h.sm_id, h.date_created, h.oof_shard⟩

/-- The four tables of the store. `deliveries`, `payments` and `items`
rows carry their `order_uid` column as the first component. -/
structure Store where
  orders : List OrderHeader
  deliveries : List (String × Delivery)
  payments : List (String × Payment)
  items : List (String × Item)
deriving DecidableEq

def emptyStore : Store := ⟨[], [], [], []⟩

/-- Model of `RepositoryError` (crate `repository`): a database error or a
missing row. -/
inductive RepositoryError
| db
| notFound
deriving DecidableEq

/-- Fault flags for the four read operations used by
`get_order_by_id` / `load_full_order`: a set flag makes that read fail
with a database error. -/
structure ReadFaults where
  ordersFail : Bool
  deliveriesFail : Bool
  paymentsFail : Bool
  itemsFail : Bool
deriving DecidableEq

def noReadFaults : ReadFaults := ⟨false, false, false, false⟩

/-- Model of `PgOrdersRepository::get_by_id`: first row of `orders` matching the
uid, rebuilt into an `Order` with default sub-records; `NotFound` when
no row matches. -/
def ordersGetById (rf : ReadFaults) (s : Store) (uid : String) :
    Except RepositoryError Order :=
  if rf.ordersFail then .error .db
  else
    match s.orders.find? (fun h => h.order_uid == uid) with
    | some h => .ok h.toOrder
    | none => .error .notFound

/-- Model of `PgDeliveriesRepository::get_by_order_id`. -/
def deliveriesGetByOrderId (rf : ReadFaults) (s : Store) (uid : String) :
    Except RepositoryError Delivery :=
  if rf.deliveriesFail then .error .db
  else
    match s.deliveries.find? (fun r => r.1 == uid) with
    | some r => .ok r.2
    | none => .error .notFound

/-- Model of `PgPaymentsRepository::get_by_order_id`. -/
def paymentsGetByOrderId (rf : ReadFaults) (s : Store) (uid : String) :
    Except RepositoryError Payment :=
  if rf.paymentsFail then .error .db
  else
    match s.payments.find? (fun r => r.1 == uid) with
    | some r => .ok r.2
    | none => .error .notFound

/-- Model of `PgItemsRepository::get_by_order_id`: all matching rows; an empty
result is `Ok([])`, never `NotFound`. -/
def itemsGetByOrderId (rf : ReadFaults) (s : Store) (uid : String) :
    Except RepositoryError (List Item) :=
  if rf.itemsFail then .error .db
  else .ok ((s.items.filter (fun r => r.1 == uid)).map (·.2))

/-- Model of `PgOrdersRepository::insert_tx` applied to a pending transaction
state: appends the header row. -/
def ordersInsertTx (s : Store) (o : Order) : Store :=
  { s with orders := s.orders ++ [o.toHeader] }

/-- Model of `PgDeliveriesRepository::insert_tx`. -/
def deliveriesInsertTx (s : Store) (d : Delivery) (uid : String) : Store :=
  { s with deliveries := s.deliveries ++ [(uid, d)] }

/-- Model of `PgPaymentsRepository::insert_tx`. -/
def paymentsInsertTx (s : Store) (p : Payment) (uid : String) : Store :=
  { s with payments := s.payments ++ [(uid, p)] }

/-- Model of `PgItemsRepository::insert_tx`: one row per item, in list order. -/
def itemsInsertTx (s : Store) (its : List Item) (uid : String) : Store :=
  { s with items := s.items ++ its.map (fun it => (uid, it)) }

/-- Model of `ServiceError` (crate `service`). -/
inductive ServiceError
| invalidOrder (reason : String)
| db (e : RepositoryError)
| pool
| unexpected (msg : String)
deriving DecidableEq

/-- Model of `OrderServiceImpl::validate_order`, with the source's reasons. -/
def validate_order (o : Order) : Except ServiceError Unit :=
  if o.order_uid.isEmpty then
    .error (.invalidOrder "order_uid is empty")
  else if o.items.isEmpty then
    .error (.invalidOrder "order has no items")
  else if o.delivery.name.isEmpty || o.delivery.phone.isEmpty then
    .error (.invalidOrder "invalid delivery data")
  else .ok ()

/-- Fault flags for the save path: pool acquisition, transaction begin,
the four inserts, and commit. -/
structure WriteFaults where
  poolFail : Bool
  beginFail : Bool
  ordersFail : Bool
  deliveriesFail : Bool
  paymentsFail : Bool
  itemsFail : Bool
  commitFail : Bool
deriving DecidableEq

def noWriteFaults : WriteFaults :=
  ⟨false, false, false, false, false, false, false⟩

/-- Pool / repository / cache operations attempted by a call, in
order. -/
inductive RepoEvent
| poolGet
| txBegin
| insOrder
| insDelivery
| insPayment
| insItems
| txCommit
| cacheWrite
deriving DecidableEq

/-- Outcome of `save_order`: the returned result, the store visible
after the call (the original on any failure, the committed transaction
on success), and the attempted operations in order. -/
structure SaveOutcome where
  result : Except ServiceError Unit
  store : Store
  events : List RepoEvent

/-- Model of `OrderServiceImpl::save_order`: validate, acquire a connection,
begin a transaction, run the four inserts in fixed order on the pending
state, commit. Any failure returns the error and leaves the visible
store unchanged (rollback on drop). -/
def save_order (wf : WriteFaults) (s : Store) (o : Order) : SaveOutcome :=
  match validate_order o with
  | .error e => ⟨.error e, s, []⟩
  | .ok _ =>
    if wf.poolFail then ⟨.error .pool, s, [.poolGet]⟩
    else if wf.beginFail then
      ⟨.error (.unexpected "Begin transaction failed"), s,
        [.poolGet, .txBegin]⟩
    else if wf.ordersFail then
      ⟨.error (.db .db), s, [.poolGet, .txBegin, .insOrder]⟩
    else
      let t1 := ordersInsertTx s o
      if wf.deliveriesFail then
        ⟨.error (.db .db), s, [.poolGet, .txBegin, .insOrder, .insDelivery]⟩
      else
        let t2 := deliveriesInsertTx t1 o.delivery o.order_uid
        if wf.paymentsFail then
          ⟨.error (.db .db), s,
            [.poolGet, .txBegin, .insOrder, .insDelivery, .insPayment]⟩
        else
          let t3 := paymentsInsertTx t2 o.payment o.order_uid
          if wf.itemsFail then
            ⟨.error (.db .db), s,
              [.poolGet, .txBegin, .insOrder, .insDelivery, .insPayment,
               .insItems]⟩
          else
            let t4 := itemsInsertTx t3 o.items o.order_uid
            if wf.commitFail then
              ⟨.error (.unexpected "Commit failed"), s,
                [.poolGet, .txBegin, .insOrder, .insDelivery, .insPayment,
                 .insItems, .txCommit]⟩
            else
              ⟨.ok (), t4,
                [.poolGet, .txBegin, .insOrder, .insDelivery, .insPayment,
                 .insItems, .txCommit]⟩

/-- Model of `OrderServiceImpl::get_order_by_id`: four independent reads in order
header, delivery, payment, items; the first error is returned (wrapped
by the `#[from]` conversion into `ServiceError::Db`); on success the
three sub-records replace the header's defaults. -/
def get_order_by_id (rf : ReadFaults) (s : Store) (uid : String) :
    Except ServiceError Order :=
  match ordersGetById rf s uid with
  | .error e => .error (.db e)
  | .ok order =>
    match deliveriesGetByOrderId rf s uid with
    | .error e => .error (.db e)
    | .ok delivery =>
      match paymentsGetByOrderId rf s uid with
      | .error e => .error (.db e)
      | .ok payment =>
        match itemsGetByOrderId rf s uid with
        | .error e => .error (.db e)
        | .ok items =>
          .ok { order with delivery := delivery, payment := payment,
                           items := items }

/-- The cache's map (crate `cache`): a `HashMap<String, Order>` modelled
as an association list with at most one entry per key; `set` replaces
the entry for its key. -/
abbrev Cache := List (String × Order)

namespace OrderCache

/-- Model of `OrderCache::get`: clone of the entry for the uid, if any. -/
def get (c : Cache) (uid : String) : Option Order :=
  (c.find? (fun r => r.1 == uid)).map (·.2)

/-- Model of `OrderCache::set`: insert-or-overwrite keyed by `order.order_uid`
(the semantics of `HashMap::insert`): the new entry replaces any
existing entry with that key, all other entries are kept. -/
def set (c : Cache) (o : Order) : Cache :=
  (o.order_uid, o) :: c.filter (fun r => r.1 != o.order_uid)

/-- Model of `OrderCache::get_all`: clones of all cached orders. -/
def get_all (c : Cache) : List Order :=
  c.map (·.2)

end OrderCache

/-- Model of `load_full_order` (crate `cache`): fetch the header, then overwrite
its delivery, payment and items fields with the three sub-reads; the
first error aborts. -/
def load_full_order (rf : ReadFaults) (s : Store) (uid : String) :
    Except RepositoryError Order :=
  match ordersGetById rf s uid with
  | .error e => .error e
  | .ok order =>
    match deliveriesGetByOrderId rf s uid with
    | .error e => .error e
    | .ok d =>
      match paymentsGetByOrderId rf s uid with
      | .error e => .error e
      | .ok p =>
        match itemsGetByOrderId rf s uid with
        | .error e => .error e
        | .ok its => .ok { order with delivery := d, payment := p, items := its }

/-- Model of `get_all_order_uids` (crate `cache`): the `order_uid` column of
every row of the `orders` table. -/
def get_all_order_uids (s : Store) : List String :=
  s.orders.map (·.order_uid)

/-- One iteration of the `load_from_db` loop: compose the full order
for `uid` and `set` it on success, leave the cache unchanged on
failure. -/
def loadStep (rf : String → ReadFaults) (s : Store) (acc : Cache)
    (uid : String) : Cache :=
  match load_full_order (rf uid) s uid with
  | .ok o => OrderCache.set acc o
  | .error _ => acc

/-- Model of `OrderCache::load_from_db`: for every listed uid, compose the full
order (with per-uid read faults `rf uid`) and `set` it; a uid whose
composition fails is skipped without aborting the loop. -/
def load_from_db (rf : String → ReadFaults) (s : Store) (c : Cache) : Cache :=
  (get_all_order_uids s).foldl (loadStep rf s) c

/-- Decoding outcome of one inbound Kafka message: missing payload,
payload that fails JSON/schema decoding, or a decoded order. -/
inductive DecodeResult
| emptyPayload
| badJson
| okOrder (o : Order)

/-- Outcome of `KafkaConsumer::handle_message`: the handler's result,
the visible store and cache after the call, and the attempted
operations. -/
structure HandleOutcome where
  result : Except String Unit
  store : Store
  cache : Cache
  events : List RepoEvent

/-- Model of `KafkaConsumer::handle_message`: a missing payload is an error; a
payload that fails to decode is skipped with `Ok(())`; a decoded order
is saved via `save_order`, and only on success written to the cache. -/
def handle_message (wf : WriteFaults) (d : DecodeResult) (s : Store)
    (c : Cache) : HandleOutcome :=
  match d with
  | .emptyPayload => ⟨.error "Empty Kafka message payload", s, c, []⟩
  | .badJson => ⟨.ok (), s, c, []⟩
  | .okOrder o =>
    let so := save_order wf s o
    match so.result with
    | .ok _ => ⟨.ok (), so.store, OrderCache.set c o, so.events ++ [.cacheWrite]⟩
    | .error _ => ⟨.ok (), so.store, c, so.events⟩

/-- The consumption loop of `KafkaConsumer::run`: each message is
handled in turn; a handler error is logged and the loop continues with
the next message. -/
def runLoop (msgs : List (WriteFaults × DecodeResult)) (s : Store)
    (c : Cache) : Store × Cache :=
  match msgs with
  | [] => (s, c)
  | m :: rest =>
    let h := handle_message m.1 m.2 s c
    runLoop rest h.store h.cache

/-- A store has no row for `uid` in any of the four tables. -/
def hasRowsFor (s : Store) (uid : String) : Bool :=
  s.orders.any (fun h => h.order_uid == uid) ||
  s.deliveries.any (fun r => r.1 == uid) ||
  s.payments.any (fun r => r.1 == uid) ||
  s.items.any (fun r => r.1 == uid)

/-- Well-formedness of a cache state: every entry is keyed by its own
order's uid and keys are distinct — the invariant `HashMap` maintains. -/
def cacheWF (c : Cache) : Prop :=
  (∀ r ∈ c, r.1 = r.2.order_uid) ∧ (c.map (·.1)).Nodup

/-- The cache state after a sequence of `set` calls starting from the
empty cache. -/
def cacheOfSets (os : List Order) : Cache :=
  os.foldl OrderCache.set []

/-- A concrete valid order, mirroring the repository's test fixture. -/
def sampleOrder : Order :=
  { order_uid := "order123"
    track_number := "track123"
    entry := "test"
    delivery :=
      { name := "Test User", phone := "+1000000000", zip := "0000"
        city := "Test City", address := "Street", region := "Test Region"
        email := "test@example.com" }
    payment :=
      { transaction := "tx1", request_id := "", currency := "USD"
        provider := "test", amount := 100, payment_dt := 0, bank := "bank"
        delivery_cost := 0, goods_total := 100, custom_fee := 0 }
    items :=
      [{ chrt_id := 1, track_number := "track123", price := 100
         rid := "rid1", name := "Item1", sale := 0, size := "L"
         total_price := 100, nm_id := 123, brand := "brand", status := 1 }]
    locale := "en"
    internal_signature := ""
    customer_id := "cust1"
    delivery_service := "svc"
    shardkey := "shard"
    sm_id := 1
    date_created := 0
    oof_shard := "oof" }

/-- The complete event sequence of a successful `save_order` call. -/
def fullEvents : List RepoEvent :=
  [.poolGet, .txBegin, .insOrder, .insDelivery, .insPayment, .insItems,
   .txCommit]

theorem save_order_events_shape (wf : WriteFaults) (s : Store) (o : Order) :
    (save_order wf s o).events <+: fullEvents := by
  unfold save_order
  cases validate_order o
  case error e => exact List.nil_prefix
  case ok u =>
    dsimp only
    repeat' split
    all_goals exact ⟨_, rfl⟩

theorem cacheWrite_not_in_save (wf : WriteFaults) (s : Store) (o : Order) :
    RepoEvent.cacheWrite ∉ (save_order wf s o).events := by
  intro hmem
  have h := save_order_events_shape wf s o
  have := h.subset hmem
  simp [fullEvents] at this

theorem get_set_same (c : Cache) (o : Order) :
    OrderCache.get (OrderCache.set c o) o.order_uid = some o := by
  simp [OrderCache.get, OrderCache.set]

theorem find?_filter_ne (c : Cache) (k uid : String) (h : uid ≠ k) :
    (c.filter (fun r => r.1 != k)).find? (fun r => r.1 == uid) =
      c.find? (fun r => r.1 == uid) := by
  induction c with
  | nil => rfl
  | cons r c ih =>
    by_cases hr : r.1 = k
    · have h1 : (r.1 != k) = false := by simp [hr]
      have h2 : (r.1 == uid) = false := by simp [hr, Ne.symm h]
      simp [List.filter_cons, h1, List.find?_cons, h2, ih]
    · have h1 : (r.1 != k) = true := by simp [hr]
      by_cases hu : r.1 = uid
      · simp [List.filter_cons, h1, List.find?_cons, hu, h]
      · have h2 : (r.1 == uid) = false := by simp [hu]
        simp [List.filter_cons, h1, List.find?_cons, h2, ih]

theorem get_set_ne (c : Cache) (o : Order) (uid : String)
    (h : uid ≠ o.order_uid) :
    OrderCache.get (OrderCache.set c o) uid = OrderCache.get c uid := by
  have h2 : (o.order_uid == uid) = false := by simp [Ne.symm h]
  simp [OrderCache.get, OrderCache.set, List.find?_cons, h2,
    find?_filter_ne c o.order_uid uid h]

theorem cacheWF_set (c : Cache) (o : Order) (h : cacheWF c) :
    cacheWF (OrderCache.set c o) := by
  obtain ⟨h1, h2⟩ := h
  refine ⟨?_, ?_⟩
  · intro r hr
    simp only [OrderCache.set, List.mem_cons] at hr
    rcases hr with hr | hr
    · rw [hr]
    · exact h1 r (List.mem_of_mem_filter hr)
  · simp only [OrderCache.set, List.map_cons, List.nodup_cons]
    constructor
    · intro hmem
      simp only [List.mem_map] at hmem
      obtain ⟨r, hr, hk⟩ := hmem
      have hfr := List.of_mem_filter hr
      simp [hk] at hfr
    · exact ((List.filter_sublist _).map _).nodup h2

theorem cacheWF_cacheOfSets (os : List Order) : cacheWF (cacheOfSets os) := by
  have hgen : ∀ c, cacheWF c → cacheWF (os.foldl OrderCache.set c) := by
    induction os with
    | nil => intro c h; exact h
    | cons o os ih => intro c h; exact ih _ (cacheWF_set c o h)
  exact hgen [] ⟨by simp, by simp⟩

theorem countP_get_all_le_one (c : Cache) (h : cacheWF c) (uid : String) :
    (OrderCache.get_all c).countP (fun o => o.order_uid == uid) ≤ 1 := by
  obtain ⟨h1, h2⟩ := h
  have e1 : (OrderCache.get_all c).countP (fun o => o.order_uid == uid) =
      c.countP (fun r => r.1 == uid) := by
    simp only [OrderCache.get_all, List.countP_map]
    exact List.countP_congr (fun r hr => by
      simp [Function.comp, h1 r hr])
  rw [e1]
  have e2 : c.countP (fun r => r.1 == uid) = (c.map (·.1)).count uid := by
    simp only [List.count, List.countP_map]
    rfl
  rw [e2]
  exact List.nodup_iff_count_le_one.mp h2 uid

theorem countP_get_all_set (c : Cache) (o : Order) (h : cacheWF c) :
    (OrderCache.get_all (OrderCache.set c o)).countP
      (fun x => x.order_uid == o.order_uid) = 1 := by
  obtain ⟨h1, _⟩ := h
  simp only [OrderCache.get_all, OrderCache.set, List.map_cons,
    List.countP_cons]
  have hz : ((c.filter (fun r => r.1 != o.order_uid)).map (·.2)).countP
      (fun x => x.order_uid == o.order_uid) = 0 := by
    rw [List.countP_eq_zero]
    intro x hx
    simp only [List.mem_map] at hx
    obtain ⟨r, hr, hx⟩ := hx
    have hne := List.of_mem_filter hr
    have hmem := List.mem_of_mem_filter hr
    have := h1 r hmem
    simp only [bne_iff_ne, ne_eq] at hne
    simp [← hx, ← this, hne]
  simp [hz]

theorem items_roundtrip (uid : String) (its : List Item) :
    ((its.map (fun it => (uid, it))).filter (fun r => r.1 == uid)).map (·.2)
      = its := by
  induction its with
  | nil => rfl
  | cons it its ih => simp [List.filter_cons, ih]

theorem save_then_get (s : Store) (o : Order)
    (hfresh : hasRowsFor s o.order_uid = false) :
    get_order_by_id noReadFaults
      (itemsInsertTx (paymentsInsertTx (deliveriesInsertTx (ordersInsertTx s o)
        o.delivery o.order_uid) o.payment o.order_uid) o.items o.order_uid)
      o.order_uid = .ok o := by
  simp only [hasRowsFor, Bool.or_eq_false_iff] at hfresh
  obtain ⟨⟨⟨ho, hd⟩, hp⟩, hi⟩ := hfresh
  rw [List.any_eq_false] at ho hd hp hi
  have fo : s.orders.find? (fun h => h.order_uid == o.order_uid) = none := by
    rw [List.find?_eq_none]; intro x hx; simp [ho x hx]
  have fd : s.deliveries.find? (fun r => r.1 == o.order_uid) = none := by
    rw [List.find?_eq_none]; intro x hx; simp [hd x hx]
  have fp : s.payments.find? (fun r => r.1 == o.order_uid) = none := by
    rw [List.find?_eq_none]; intro x hx; simp [hp x hx]
  have fi : s.items.filter (fun r => r.1 == o.order_uid) = [] := by
    rw [List.filter_eq_nil_iff]; intro x hx; simp [hi x hx]
  simp only [get_order_by_id, ordersGetById, deliveriesGetByOrderId,
    paymentsGetByOrderId, itemsGetByOrderId, noReadFaults,
    ordersInsertTx, deliveriesInsertTx, paymentsInsertTx, itemsInsertTx,
    Bool.false_eq_true, if_false, List.find?_append, fo, fd, fp,
    List.filter_append, fi, items_roundtrip]
  simp [List.find?_cons, Order.toHeader, OrderHeader.toOrder, items_roundtrip]

theorem ordersGetById_uid (rf : ReadFaults) (s : Store) (uid : String)
    (o : Order) (h : ordersGetById rf s uid = .ok o) : o.order_uid = uid := by
  unfold ordersGetById at h
  by_cases hf : rf.ordersFail
  · simp [hf] at h
  · simp only [hf, Bool.false_eq_true, if_false] at h
    cases hfind : s.orders.find? (fun hh => hh.order_uid == uid) with
    | none => rw [hfind] at h; cases h
    | some hh =>
      rw [hfind] at h
      have hpred := List.find?_some hfind
      cases h
      simpa [OrderHeader.toOrder] using hpred

theorem load_full_order_uid (rf : ReadFaults) (s : Store) (uid : String)
    (o : Order) (h : load_full_order rf s uid = .ok o) : o.order_uid = uid := by
  unfold load_full_order at h
  cases h1 : ordersGetById rf s uid with
  | error e => rw [h1] at h; cases h
  | ok order =>
    rw [h1] at h
    cases h2 : deliveriesGetByOrderId rf s uid with
    | error e => rw [h2] at h; cases h
    | ok d =>
      rw [h2] at h
      cases h3 : paymentsGetByOrderId rf s uid with
      | error e => rw [h3] at h; cases h
      | ok p =>
        rw [h3] at h
        cases h4 : itemsGetByOrderId rf s uid with
        | error e => rw [h4] at h; cases h
        | ok its =>
          rw [h4] at h
          cases h
          exact ordersGetById_uid rf s uid order h1

theorem get_load_foldl_of_ok (rf : String → ReadFaults) (s : Store)
    (uids : List String) (uid : String) (o : Order)
    (h : load_full_order (rf uid) s uid = .ok o) :
    ∀ c : Cache, OrderCache.get (uids.foldl (loadStep rf s) c) uid =
      if uid ∈ uids then some o else OrderCache.get c uid := by
  induction uids with
  | nil => intro c; simp
  | cons u rest ih =>
    intro c
    by_cases hu : u = uid
    · subst hu
      have hstep : loadStep rf s c u = OrderCache.set c o := by
        simp [loadStep, h]
      have huid : o.order_uid = u := load_full_order_uid _ _ _ _ h
      simp only [List.foldl_cons, hstep, ih, List.mem_cons, true_or, if_true]
      by_cases hr : u ∈ rest
      · simp [hr]
      · simp [hr, ← huid, get_set_same]
    · have hmem : (uid ∈ u :: rest) = (uid ∈ rest) := by
        simp [List.mem_cons, Ne.symm hu]
      simp only [List.foldl_cons, ih, hmem]
      by_cases hr : uid ∈ rest
      · simp [hr]
      · simp only [hr, if_false]
        cases hload : load_full_order (rf u) s u with
        | error e => simp [loadStep, hload]
        | ok o' =>
          have huid : o'.order_uid = u := load_full_order_uid _ _ _ _ hload
          have : uid ≠ o'.order_uid := by rw [huid]; exact fun hh => hu hh.symm
          simp [loadStep, hload, get_set_ne _ _ _ this]

/-- Fault configuration in which only the items insert fails. -/
def itemsFailWF : WriteFaults := ⟨false, false, false, false, false, true, false⟩

/-- The store after saving the sample order into an empty store. -/
def store1 : Store := (save_order noWriteFaults emptyStore sampleOrder).store

/-- Read faults failing only the deliveries read. -/
def deliveryReadFail : ReadFaults := ⟨false, true, false, false⟩

/-- The sample order with its items removed: rejected by validation. -/
def noItemsOrder : Order := { sampleOrder with items := [] }

/-- The sample order with a modified field (same uid). -/
def sampleOrderRu : Order := { sampleOrder with locale := "ru" }

theorem get_load_foldl_of_error (rf : String → ReadFaults) (s : Store)
    (uids : List String) (uid : String)
    (h : ∀ o, load_full_order (rf uid) s uid ≠ .ok o) :
    ∀ c : Cache, OrderCache.get c uid = none →
      OrderCache.get (uids.foldl (loadStep rf s) c) uid = none := by
  induction uids with
  | nil => intro c hc; simpa using hc
  | cons u rest ih =>
    intro c hc
    simp only [List.foldl_cons]
    apply ih
    cases hload : load_full_order (rf u) s u with
    | error e => simpa [loadStep, hload] using hc
    | ok o' =>
      have huid : o'.order_uid = u := load_full_order_uid _ _ _ _ hload
      by_cases hu : u = uid
      · subst hu; exact absurd hload (h o')
      · have : uid ≠ o'.order_uid := by rw [huid]; exact fun hh => hu hh.symm
        rw [loadStep, hload]
        simpa [get_set_ne _ _ _ this] using hc

/-- C1: for every order that passes validation, if any of the four
transactional inserts fails, `save_order` returns an error, the
transaction is never committed, the visible store is unchanged, and in
particular a uid with no rows before the call has no rows after it. -/
theorem save_order_failed_insert_atomic (wf : WriteFaults) (s : Store)
    (o : Order) (hv : validate_order o = .ok ())
    (hf : (wf.ordersFail || wf.deliveriesFail || wf.paymentsFail ||
           wf.itemsFail) = true) :
    (save_order wf s o).result ≠ .ok () ∧
    (save_order wf s o).store = s ∧
    RepoEvent.txCommit ∉ (save_order wf s o).events ∧
    (hasRowsFor s o.order_uid = false →
      hasRowsFor (save_order wf s o).store o.order_uid = false) := by
  obtain ⟨p, b, f1, f2, f3, f4, fc⟩ := wf
  simp only [Bool.or_eq_true] at hf
  unfold save_order
  rw [hv]
  dsimp only
  cases p <;> cases b <;> cases f1 <;> cases f2 <;> cases f3 <;> cases f4 <;>
    cases fc <;> simp_all

/-- C1 witness: the items insert fails on the sample order over the
empty store. -/
theorem save_order_failed_insert_atomic_witness :
    validate_order sampleOrder = .ok () ∧
    (itemsFailWF.ordersFail || itemsFailWF.deliveriesFail ||
     itemsFailWF.paymentsFail || itemsFailWF.itemsFail) = true ∧
    ((save_order itemsFailWF emptyStore sampleOrder).result ≠ .ok () ∧
     (save_order itemsFailWF emptyStore sampleOrder).store = emptyStore ∧
     RepoEvent.txCommit ∉ (save_order itemsFailWF emptyStore sampleOrder).events ∧
     (hasRowsFor emptyStore sampleOrder.order_uid = false →
       hasRowsFor (save_order itemsFailWF emptyStore sampleOrder).store
         sampleOrder.order_uid = false)) :=
  ⟨rfl, rfl, save_order_failed_insert_atomic itemsFailWF emptyStore sampleOrder
    rfl rfl⟩

/-- C2: an order with empty `order_uid`, empty `items`, or empty
delivery name/phone is rejected with `InvalidOrder`; the store is
untouched and no pool or repository operation is attempted. -/
theorem save_order_invalid_rejected (wf : WriteFaults) (s : Store) (o : Order)
    (h : (o.order_uid.isEmpty || o.items.isEmpty ||
          o.delivery.name.isEmpty || o.delivery.phone.isEmpty) = true) :
    (∃ r, (save_order wf s o).result = .error (.invalidOrder r)) ∧
    (save_order wf s o).store = s ∧
    (save_order wf s o).events = [] := by
  unfold save_order validate_order
  by_cases h1 : o.order_uid.isEmpty <;> by_cases h2 : o.items.isEmpty <;>
    by_cases h3 : o.delivery.name.isEmpty <;>
    by_cases h4 : o.delivery.phone.isEmpty <;> simp_all

/-- C2 witness: the sample order with its items removed. -/
theorem save_order_invalid_rejected_witness :
    (noItemsOrder.order_uid.isEmpty || noItemsOrder.items.isEmpty ||
     noItemsOrder.delivery.name.isEmpty ||
     noItemsOrder.delivery.phone.isEmpty) = true ∧
    ((∃ r, (save_order noWriteFaults emptyStore noItemsOrder).result =
        .error (.invalidOrder r)) ∧
     (save_order noWriteFaults emptyStore noItemsOrder).store = emptyStore ∧
     (save_order noWriteFaults emptyStore noItemsOrder).events = []) :=
  ⟨rfl, save_order_invalid_rejected noWriteFaults emptyStore noItemsOrder rfl⟩

/-- C9: within one `save_order` call the attempted operations form a
prefix of the canonical sequence (header, delivery, payment, items, in
that fixed order); a successful call attempts exactly that sequence,
and once an insert fails no later insert is attempted. -/
theorem save_order_insert_sequence (wf : WriteFaults) (s : Store) (o : Order)
    (hv : validate_order o = .ok ()) :
    (save_order wf s o).events <+: fullEvents ∧
    ((save_order wf s o).result = .ok () →
      (save_order wf s o).events = fullEvents) ∧
    (wf.ordersFail = true →
      RepoEvent.insDelivery ∉ (save_order wf s o).events ∧
      RepoEvent.insPayment ∉ (save_order wf s o).events ∧
      RepoEvent.insItems ∉ (save_order wf s o).events) ∧
    (wf.deliveriesFail = true →
      RepoEvent.insPayment ∉ (save_order wf s o).events ∧
      RepoEvent.insItems ∉ (save_order wf s o).events) ∧
    (wf.paymentsFail = true →
      RepoEvent.insItems ∉ (save_order wf s o).events) := by
  refine ⟨save_order_events_shape wf s o, ?_⟩
  obtain ⟨p, b, f1, f2, f3, f4, fc⟩ := wf
  unfold save_order
  rw [hv]
  dsimp only
  cases p <;> cases b <;> cases f1 <;> cases f2 <;> cases f3 <;> cases f4 <;>
    cases fc <;> simp_all [fullEvents]

/-- C9 witness: a failing payments insert on the sample order attempts
no items insert; the fault-free run attempts the full sequence. -/
theorem save_order_insert_sequence_witness :
    validate_order sampleOrder = .ok () ∧
    (save_order noWriteFaults emptyStore sampleOrder).events <+: fullEvents ∧
    ((save_order noWriteFaults emptyStore sampleOrder).result = .ok () →
      (save_order noWriteFaults emptyStore sampleOrder).events = fullEvents) :=
  ⟨rfl, (save_order_insert_sequence noWriteFaults emptyStore sampleOrder rfl).1,
   (save_order_insert_sequence noWriteFaults emptyStore sampleOrder rfl).2.1⟩

/-- C3: in the ingestion path the cache write happens if and only if
`save_order` succeeded; on any save failure (validation or store) the
cache is unchanged. -/
theorem handle_message_cache_iff_saved (wf : WriteFaults) (s : Store)
    (c : Cache) (o : Order) :
    (RepoEvent.cacheWrite ∈ (handle_message wf (.okOrder o) s c).events ↔
      (save_order wf s o).result = .ok ()) ∧
    ((save_order wf s o).result ≠ .ok () →
      (handle_message wf (.okOrder o) s c).cache = c) ∧
    ((save_order wf s o).result = .ok () →
      (handle_message wf (.okOrder o) s c).cache = OrderCache.set c o) := by
  have hnotin := cacheWrite_not_in_save wf s o
  cases hres : (save_order wf s o).result with
  | ok u =>
    cases u
    refine ⟨?_, fun hne => absurd rfl hne, fun _ => ?_⟩
    · simp [handle_message, hres]
    · simp [handle_message, hres]
  | error e =>
    refine ⟨?_, fun _ => ?_, fun hok => by simp at hok⟩
    · simp only [handle_message, hres]
      constructor
      · intro hmem
        exact absurd hmem hnotin
      · intro hok
        simp at hok
    · simp [handle_message, hres]

/-- C3 witness: a fault-free save of the sample order is cached;
a failing items insert leaves the cache unchanged. -/
theorem handle_message_cache_iff_saved_witness :
    (save_order noWriteFaults emptyStore sampleOrder).result = .ok () ∧
    (handle_message noWriteFaults (.okOrder sampleOrder) emptyStore []).cache
      = OrderCache.set [] sampleOrder ∧
    (save_order itemsFailWF emptyStore sampleOrder).result ≠ .ok () ∧
    (handle_message itemsFailWF (.okOrder sampleOrder) emptyStore []).cache
      = [] := by
  have herr : (save_order itemsFailWF emptyStore sampleOrder).result
      = .error (.db .db) := rfl
  refine ⟨rfl,
    (handle_message_cache_iff_saved noWriteFaults emptyStore []
      sampleOrder).2.2 rfl, ?_,
    (handle_message_cache_iff_saved itemsFailWF emptyStore []
      sampleOrder).2.1 ?_⟩
  · rw [herr]; simp
  · rw [herr]; simp

/-- C6: `set` is idempotent and overwriting: setting the same order
twice leaves `get` returning it, and a second `set` with the same uid
but modified fields replaces the entry entirely. -/
theorem cache_set_idempotent_overwrite (c : Cache) (o o' : Order)
    (h : o'.order_uid = o.order_uid) :
    OrderCache.get (OrderCache.set (OrderCache.set c o) o) o.order_uid
      = some o ∧
    OrderCache.get (OrderCache.set (OrderCache.set c o) o') o.order_uid
      = some o' := by
  refine ⟨get_set_same _ o, ?_⟩
  rw [← h]
  exact get_set_same _ o'

/-- C6 witness: the sample order and its locale-modified variant. -/
theorem cache_set_idempotent_overwrite_witness :
    sampleOrderRu.order_uid = sampleOrder.order_uid ∧
    OrderCache.get (OrderCache.set (OrderCache.set [] sampleOrder) sampleOrder)
      sampleOrder.order_uid = some sampleOrder ∧
    OrderCache.get (OrderCache.set (OrderCache.set [] sampleOrder) sampleOrderRu)
      sampleOrder.order_uid = some sampleOrderRu :=
  ⟨rfl, (cache_set_idempotent_overwrite [] sampleOrder sampleOrderRu rfl).1,
   (cache_set_idempotent_overwrite [] sampleOrder sampleOrderRu rfl).2⟩

/-- C8: a payload that fails decoding makes the handler return `Ok`
without touching the store, the cache, or any repository, and the loop
goes on to process the remaining messages unchanged. -/
theorem handle_message_decode_resilient (wf : WriteFaults) (s : Store)
    (c : Cache) (msgs : List (WriteFaults × DecodeResult)) :
    (handle_message wf .badJson s c).result = .ok () ∧
    (handle_message wf .badJson s c).store = s ∧
    (handle_message wf .badJson s c).cache = c ∧
    (handle_message wf .badJson s c).events = [] ∧
    runLoop ((wf, .badJson) :: msgs) s c = runLoop msgs s c :=
  ⟨rfl, rfl, rfl, rfl, rfl⟩

/-- C10: in every cache state reachable from the empty cache by `set`
calls, each entry is keyed by its own order's uid, `get uid` only
returns an order whose uid field is `uid`, and `get_all` has at most
one entry per uid. -/
theorem cache_key_consistency (os : List Order) (uid : String) :
    (∀ r ∈ cacheOfSets os, r.1 = r.2.order_uid) ∧
    (∀ o, OrderCache.get (cacheOfSets os) uid = some o →
      o.order_uid = uid) ∧
    (OrderCache.get_all (cacheOfSets os)).countP
      (fun o => o.order_uid == uid) ≤ 1 := by
  have hwf := cacheWF_cacheOfSets os
  refine ⟨hwf.1, ?_, countP_get_all_le_one _ hwf uid⟩
  intro o hget
  unfold OrderCache.get at hget
  cases hfind : (cacheOfSets os).find? (fun r => r.1 == uid) with
  | none => rw [hfind] at hget; cases hget
  | some r =>
    rw [hfind] at hget
    have hpred := List.find?_some hfind
    have hmem := List.mem_of_find?_eq_some hfind
    have hkey := hwf.1 r hmem
    simp only [Option.map_some', Option.some.injEq] at hget
    simp only [beq_iff_eq] at hpred
    rw [← hget, ← hkey, hpred]

/-- C10 witness: the cache reached by one `set` of the sample order. -/
theorem cache_key_consistency_witness :
    OrderCache.get (cacheOfSets [sampleOrder]) "order123" = some sampleOrder ∧
    sampleOrder.order_uid = "order123" ∧
    (OrderCache.get_all (cacheOfSets [sampleOrder])).countP
      (fun o => o.order_uid == "order123") ≤ 1 :=
  ⟨rfl, (cache_key_consistency [sampleOrder] "order123").2.1 sampleOrder rfl,
   (cache_key_consistency [sampleOrder] "order123").2.2⟩

/-- C4: end-to-end round trip: a valid order saved into a store with no
rows for its uid saves successfully; `get_order_by_id` then returns an
order equal to the input; after the caller also calls `set`, `get_all`
contains exactly one entry with that uid. -/
theorem save_order_end_to_end (s : Store) (c : Cache) (o : Order)
    (hv : validate_order o = .ok ())
    (hfresh : hasRowsFor s o.order_uid = false)
    (hc : cacheWF c) :
    (save_order noWriteFaults s o).result = .ok () ∧
    get_order_by_id noReadFaults (save_order noWriteFaults s o).store
      o.order_uid = .ok o ∧
    (OrderCache.get_all (OrderCache.set c o)).countP
      (fun x => x.order_uid == o.order_uid) = 1 := by
  have hres : (save_order noWriteFaults s o).result = .ok () := by
    unfold save_order
    rw [hv]
    rfl
  have hstore : (save_order noWriteFaults s o).store =
      itemsInsertTx (paymentsInsertTx (deliveriesInsertTx (ordersInsertTx s o)
        o.delivery o.order_uid) o.payment o.order_uid) o.items o.order_uid := by
    unfold save_order
    rw [hv]
    rfl
  refine ⟨hres, ?_, countP_get_all_set c o hc⟩
  rw [hstore]
  exact save_then_get s o hfresh

/-- C4 witness: the sample order over the empty store and empty cache. -/
theorem save_order_end_to_end_witness :
    validate_order sampleOrder = .ok () ∧
    hasRowsFor emptyStore sampleOrder.order_uid = false ∧
    ((save_order noWriteFaults emptyStore sampleOrder).result = .ok () ∧
     get_order_by_id noReadFaults
       (save_order noWriteFaults emptyStore sampleOrder).store
       sampleOrder.order_uid = .ok sampleOrder ∧
     (OrderCache.get_all (OrderCache.set [] sampleOrder)).countP
       (fun x => x.order_uid == sampleOrder.order_uid) = 1) :=
  ⟨rfl, rfl, save_order_end_to_end emptyStore [] sampleOrder rfl rfl
    ⟨by simp, by simp⟩⟩

/-- C5: after `load_from_db` into the empty cache, every listed uid
whose four parts compose is cached with exactly the composed order, and
a uid whose composition fails is absent from the cache — independently
of failures of other uids, so one failure does not abort the load. -/
theorem load_from_db_consistency (rf : String → ReadFaults) (s : Store)
    (uid : String) :
    (∀ o, uid ∈ get_all_order_uids s →
        load_full_order (rf uid) s uid = .ok o →
        OrderCache.get (load_from_db rf s []) uid = some o) ∧
    ((∀ o, load_full_order (rf uid) s uid ≠ .ok o) →
        OrderCache.get (load_from_db rf s []) uid = none) := by
  constructor
  · intro o hmem hok
    unfold load_from_db
    rw [get_load_foldl_of_ok rf s _ uid o hok]
    simp [hmem]
  · intro hfail
    unfold load_from_db
    exact get_load_foldl_of_error rf s _ uid hfail [] rfl

/-- C5 witness: loading a store holding the sample order restores it;
a store whose deliveries read fails leaves the uid uncached. -/
theorem load_from_db_consistency_witness :
    sampleOrder.order_uid ∈ get_all_order_uids store1 ∧
    load_full_order noReadFaults store1 sampleOrder.order_uid
      = .ok sampleOrder ∧
    OrderCache.get (load_from_db (fun _ => noReadFaults) store1 [])
      sampleOrder.order_uid = some sampleOrder ∧
    OrderCache.get (load_from_db (fun _ => deliveryReadFail) store1 [])
      sampleOrder.order_uid = none := by
  refine ⟨by decide, rfl, ?_, ?_⟩
  · exact (load_from_db_consistency (fun _ => noReadFaults) store1
      sampleOrder.order_uid).1 sampleOrder
      (by decide) rfl
  · exact (load_from_db_consistency (fun _ => deliveryReadFail) store1
      sampleOrder.order_uid).2
      (fun o h => by rw [show load_full_order deliveryReadFail store1
        sampleOrder.order_uid = .error .db from rfl] at h; cases h)

/-- C7: `get_order_by_id` performs the four reads in the fixed order
header, delivery, payment, items, returns the first error encountered,
and on success composes an order whose delivery, payment and items
fields are exactly the three sub-read results. -/
theorem get_order_by_id_first_error (rf : ReadFaults) (s : Store)
    (uid : String) :
    (∀ e, ordersGetById rf s uid = .error e →
        get_order_by_id rf s uid = .error (.db e)) ∧
    (∀ o e, ordersGetById rf s uid = .ok o →
        deliveriesGetByOrderId rf s uid = .error e →
        get_order_by_id rf s uid = .error (.db e)) ∧
    (∀ o d e, ordersGetById rf s uid = .ok o →
        deliveriesGetByOrderId rf s uid = .ok d →
        paymentsGetByOrderId rf s uid = .error e →
        get_order_by_id rf s uid = .error (.db e)) ∧
    (∀ o d p e, ordersGetById rf s uid = .ok o →
        deliveriesGetByOrderId rf s uid = .ok d →
        paymentsGetByOrderId rf s uid = .ok p →
        itemsGetByOrderId rf s uid = .error e →
        get_order_by_id rf s uid = .error (.db e)) ∧
    (∀ o d p its, ordersGetById rf s uid = .ok o →
        deliveriesGetByOrderId rf s uid = .ok d →
        paymentsGetByOrderId rf s uid = .ok p →
        itemsGetByOrderId rf s uid = .ok its →
        get_order_by_id rf s uid =
          .ok { o with delivery := d, payment := p, items := its }) := by
  refine ⟨?_, ?_, ?_, ?_, ?_⟩
  · intro e h1
    unfold get_order_by_id
    rw [h1]
  · intro o e h1 h2
    unfold get_order_by_id
    rw [h1, h2]
  · intro o d e h1 h2 h3
    unfold get_order_by_id
    rw [h1, h2, h3]
  · intro o d p e h1 h2 h3 h4
    unfold get_order_by_id
    rw [h1, h2, h3, h4]
  · intro o d p its h1 h2 h3 h4
    unfold get_order_by_id
    rw [h1, h2, h3, h4]

/-- C7 witness: over the store holding the sample order, a failing
deliveries read yields the delivery error even though the header read
succeeded; the fault-free reads compose the sample order. -/
theorem get_order_by_id_first_error_witness :
    ordersGetById deliveryReadFail store1 sampleOrder.order_uid
      = .ok sampleOrder.toHeader.toOrder ∧
    deliveriesGetByOrderId deliveryReadFail store1 sampleOrder.order_uid
      = .error .db ∧
    get_order_by_id deliveryReadFail store1 sampleOrder.order_uid
      = .error (.db .db) ∧
    get_order_by_id noReadFaults store1 sampleOrder.order_uid
      = .ok { sampleOrder.toHeader.toOrder with
              delivery := sampleOrder.delivery,
              payment := sampleOrder.payment,
              items := sampleOrder.items } :=
  ⟨rfl, rfl,
   (get_order_by_id_first_error deliveryReadFail store1
     sampleOrder.order_uid).2.1 sampleOrder.toHeader.toOrder .db rfl rfl,
   (get_order_by_id_first_error noReadFaults store1
     sampleOrder.order_uid).2.2.2.2 sampleOrder.toHeader.toOrder
     sampleOrder.delivery sampleOrder.payment sampleOrder.items
     rfl rfl rfl rfl⟩
